import Mathlib

/-!
# The multi scheduler of `src/multi.c`

A shallow embedding of `R_multi_cancel`, `R_multi_add` and `R_multi_run`.

* A `reference` is a record; the heap of references is a function from the
  pointer (a natural number) to the record.  The easy handle of a reference
  and the reference are identified (the `CURLINFO_PRIVATE` slot of the easy
  handle points back at its reference).
* `global_multi` (libcurl) is an explicit record: the easy handles added to it
  and its queue of completion messages.
* R callbacks are closures identified by a number; an environment gives each
  closure its body, a list of scheduler actions (submit, cancel, raise).
* Everything the loop asks of the outside world (interrupt flag, results of
  `curl_multi_perform`, clock) is read from an explicit script, one record per
  iteration of the outer loop.
* `PROTECT`/`UNPROTECT` only guard against garbage collection and are left out.
* C `int` counters are integers (no overflow is reachable in the claims) and
  the two `double`s of the loop are integers too: the code only compares them.
-/

namespace Curl

/-! ## R objects and errors -/

/-- An R object handed to the scheduler as a callback: either a closure, known
by its number, or something that is not a function (such as `R_NilValue`). -/
inductive SEXP where
  | nil : SEXP
  | closure (id : Nat) : SEXP
  deriving DecidableEq

/-- The test `Rf_isFunction`. -/
def Rf_isFunction : SEXP → Bool
  | SEXP.closure _ => true
  | SEXP.nil => false

/-- Return codes of the multi interface (`CURLMcode`). -/
inductive CURLMcode where
  | CURLM_CALL_MULTI_PERFORM
  | CURLM_OK
  | CURLM_BAD_HANDLE
  | CURLM_BAD_EASY_HANDLE
  | CURLM_OUT_OF_MEMORY
  | CURLM_INTERNAL_ERROR
  | CURLM_ADDED_ALREADY
  deriving DecidableEq

open CURLMcode

/-- An R error (`Rf_error`): control leaves the C function at once. -/
inductive RError where
  | handle_locked : RError
  | multi_error (code : CURLMcode) : RError
  deriving DecidableEq

/-! ## References -/

/-- The write callback installed on an easy handle (`CURLOPT_WRITEFUNCTION`). -/
inductive WriteFunction where
  | null
  | append_buffer
  deriving DecidableEq

/-- The target of the write callback (`CURLOPT_WRITEDATA`). -/
inductive WriteData where
  | null
  | multi_content
  deriving DecidableEq

/-- The options of the easy handle that the scheduler sets. -/
structure CURL where
  writefunction : WriteFunction
  writedata : WriteData
  deriving DecidableEq

/-- The field `multi` of a reference. -/
structure MultiFields where
  busy : Bool
  content : List Nat
  complete : SEXP
  error : SEXP
  deriving DecidableEq

/-- The struct `reference`; `freed` records that `clean_handle` released it. -/
structure Reference where
  handle : CURL
  locked : Bool
  refCount : Int
  multi : MultiFields
  freed : Bool
  deriving DecidableEq

/-! ## The transfer engine -/

/-- A completion message (`CURLMsg`; `CURLMSG_DONE` is the only kind libcurl
emits): the easy handle and its result, `0` being `CURLE_OK`. -/
structure CURLMsg where
  easy_handle : Nat
  result : Nat
  deriving DecidableEq

/-- The multi handle: easy handles added, completion queue, options. -/
structure CURLM where
  handles : List Nat
  msgs : List CURLMsg
  pipelining : Bool
  max_total_connections : Int
  max_host_connections : Int
  deriving DecidableEq

/-- Does the easy handle `h` have a message waiting in the queue? -/
def has_msg (m : CURLM) (h : Nat) : Bool :=
  m.msgs.any (fun x => x.easy_handle == h)

/-- Modelled from the spec: the engine operation `addToContext` (libcurl's
`curl_multi_add_handle`), absent from the sources: the handle joins the active
set; as in libcurl, a handle that is already there is refused
(`CURLM_ADDED_ALREADY`). -/
def curl_multi_add_handle (m : CURLM) (h : Nat) : CURLMcode × CURLM :=
  if h ∈ m.handles then (CURLM_ADDED_ALREADY, m)
  else (CURLM_OK, { m with handles := h :: m.handles })

/-- Modelled from the spec: the engine operation `removeFromContext` (libcurl's
`curl_multi_remove_handle`), absent from the sources: the handle leaves the
active set together with any message still queued for it; as in libcurl,
removing a handle that is not there succeeds too. -/
def curl_multi_remove_handle (m : CURLM) (h : Nat) : CURLMcode × CURLM :=
  (CURLM_OK, { m with handles := m.handles.filter (fun x => x != h),
                      msgs := m.msgs.filter (fun x => x.easy_handle != h) })

/-- What one call of `curl_multi_perform` does, as dictated by the outside
world: its return code and the transfers that finish during the call. -/
structure PerformEvent where
  res : CURLMcode
  done : List CURLMsg
  deriving DecidableEq

/-- A transfer finishes: its message is queued, provided the handle is active
and has no message yet. -/
def finish_transfer (m : CURLM) (d : CURLMsg) : CURLM :=
  if d.easy_handle ∈ m.handles ∧ has_msg m d.easy_handle = false
  then { m with msgs := m.msgs ++ [d] } else m

/-- The number of active handles whose transfer has not finished. -/
def running_handles (m : CURLM) : Int :=
  ((m.handles.filter (fun h => !has_msg m h)).length : Int)

/-- Modelled from the spec: the engine operation `nonBlockingPerform` (libcurl's
`curl_multi_perform`), absent from the sources: returns the code, the number of
transfers still running, and the engine with the finished transfers queued. -/
def curl_multi_perform (m : CURLM) (ev : PerformEvent) : CURLMcode × Int × CURLM :=
  let m1 := ev.done.foldl finish_transfer m
  (ev.res, running_handles m1, m1)

/-- Modelled from the spec: the engine operation `pollCompletions` (libcurl's
`curl_multi_info_read`), absent from the sources: pops the next message and
reports how many remain. -/
def curl_multi_info_read (m : CURLM) : Option CURLMsg × Nat × CURLM :=
  match m.msgs with
  | [] => (none, 0, m)
  | x :: rest => (some x, rest.length, { m with msgs := rest })

/-! ## Program state -/

/-- One invocation of a callback by the dispatcher, as recorded in the trace:
the function, the reference being finalized, which of the two slots it came
from, the engine status, the body snapshot, and the references as they are when
the callback is entered. -/
structure Call where
  fn : SEXP
  handle_ptr : Nat
  is_error : Bool
  status : Nat
  buf : List Nat
  heap : Nat → Reference

/-- The state of the process: the references, the multi handle, the objects
protected by `R_PreserveObject`, and the trace of callback invocations. -/
structure State where
  refs : Nat → Reference
  global_multi : CURLM
  precious : List SEXP
  trace : List Call

/-- The result of a C entry point: the state it leaves and the R error it
raised, if any. -/
structure Outcome where
  state : State
  error : Option RError

/-- Modelled from the spec: `get_ref`, absent from the sources, recovers the
Reference behind a handle pointer. -/
def get_ref (s : State) (handle_ptr : Nat) : Reference :=
  s.refs handle_ptr

/-- Store a reference back at its address. -/
def set_ref (s : State) (handle_ptr : Nat) (ref : Reference) : State :=
  { s with refs := Function.update s.refs handle_ptr ref }

/-- Modelled from the spec: `reset_multi`, absent from the sources, clears
`busy` and resets the transient multi-state of the Reference (buffer, sink). -/
def reset_multi (ref : Reference) : Reference :=
  { ref with
    multi := { ref.multi with busy := false, content := [] },
    handle := { writefunction := WriteFunction.null, writedata := WriteData.null } }

/-- Modelled from the spec: `clean_handle`, absent from the sources, destroys
the Reference if its `refCount` has reached zero. -/
def clean_handle (ref : Reference) : Reference :=
  if ref.refCount = 0 then { ref with freed := true } else ref

/-- Modelled from the spec: `massert`, absent from the sources, raises an R
error unless the engine reported success. -/
def massert (res : CURLMcode) : Option RError :=
  if res = CURLM_OK then none else some (RError.multi_error res)

/-- The R primitive `R_PreserveObject`. -/
def R_PreserveObject (s : State) (x : SEXP) : State :=
  { s with precious := x :: s.precious }

/-- The R primitive `R_ReleaseObject`. -/
def R_ReleaseObject (s : State) (x : SEXP) : State :=
  { s with precious := s.precious.erase x }

/-! ## `R_multi_cancel` and `R_multi_add` -/

/-- The function `R_multi_cancel` (multi.c, lines 20-32). -/
def R_multi_cancel (s : State) (handle_ptr : Nat) : Outcome :=
  let ref := get_ref s handle_ptr
  if ref.multi.busy then
    let r := curl_multi_remove_handle s.global_multi handle_ptr
    let s1 := { s with global_multi := r.2 }
    match massert r.1 with
    | some e => { state := s1, error := some e }
    | none =>
      let s2 := R_ReleaseObject s1 ref.multi.complete
      let s3 := R_ReleaseObject s2 ref.multi.error
      let ref1 := reset_multi ref
      let ref2 := { ref1 with locked := false }
      let ref3 := { ref2 with refCount := ref2.refCount - 1 }
      { state := set_ref s3 handle_ptr (clean_handle ref3), error := none }
  else { state := s, error := none }

/-- The function `R_multi_add` (multi.c, lines 34-55). -/
def R_multi_add (s : State) (handle_ptr : Nat) (cb_complete cb_error : SEXP) : Outcome :=
  let ref := get_ref s handle_ptr
  if ref.locked then { state := s, error := some RError.handle_locked }
  else
    let ref1 := { ref with handle := { writefunction := WriteFunction.append_buffer,
                                       writedata := WriteData.multi_content } }
    let s1 := set_ref s handle_ptr ref1
    let r := curl_multi_add_handle s1.global_multi handle_ptr
    let s2 := { s1 with global_multi := r.2 }
    match massert r.1 with
    | some e => { state := s2, error := some e }
    | none =>
      let ref2 := { ref1 with multi := { ref1.multi with busy := true } }
      let ref3 := { ref2 with multi := { ref2.multi with complete := cb_complete } }
      let s3 := R_PreserveObject s2 cb_complete
      let ref4 := { ref3 with multi := { ref3.multi with error := cb_error } }
      let s4 := R_PreserveObject s3 cb_error
      let ref5 := { ref4 with refCount := ref4.refCount + 1 }
      let ref6 := { ref5 with locked := true }
      { state := set_ref s4 handle_ptr ref6, error := none }

/-! ## Callbacks -/

/-- What the body of an R callback can do to the scheduler: submit a handle,
cancel a handle, or signal an R error. -/
inductive Action where
  | multi_add (handle_ptr : Nat) (cb_complete cb_error : SEXP)
  | multi_cancel (handle_ptr : Nat)
  | stop
  deriving DecidableEq

/-- The closures of the R session: the body behind each closure number. -/
abbrev Closures := Nat → List Action

/-- The body of an R object called as a function. -/
def body (env : Closures) : SEXP → List Action
  | SEXP.closure id => env id
  | SEXP.nil => []

/-- Evaluate the body of a callback: the actions run in order, and the first R
error (raised by the body itself or by a scheduler entry point it calls) ends
the evaluation; what was done before stays done.  The flag is the `ok` of
`R_tryEval`. -/
def eval_body : List Action → State → State × Bool
  | [], s => (s, true)
  | Action.stop :: _, s => (s, false)
  | Action.multi_add h c e :: rest, s =>
    match (R_multi_add s h c e).error with
    | some _ => ((R_multi_add s h c e).state, false)
    | none => eval_body rest (R_multi_add s h c e).state
  | Action.multi_cancel h :: rest, s =>
    match (R_multi_cancel s h).error with
    | some _ => ((R_multi_cancel s h).state, false)
    | none => eval_body rest (R_multi_cancel s h).state

/-- The R primitive `R_tryEval` applied to a callback call: the invocation is
recorded, the body is evaluated, errors are caught. -/
def R_tryEval (env : Closures) (call : Call) (s : State) : State × Bool :=
  eval_body (body env call.fn) { s with trace := s.trace ++ [call] }

/-! ## `R_multi_run` -/

/-- The local variables of `R_multi_run` that outlive one iteration. -/
structure Locals where
  total_pending : Int
  total_success : Int
  total_fail : Int
  dirty : Bool
  deriving DecidableEq

/-- The body of `if(m && (m->msg == CURLMSG_DONE))` (multi.c, lines 95-146):
finalize the reference of a finished transfer and call its callback. -/
def dispatch (env : Closures) (s : State) (l : Locals) (m : CURLMsg) : Outcome × Locals :=
  let l1 := { l with dirty := true }
  let handle := m.easy_handle
  let status := m.result
  let r := curl_multi_remove_handle s.global_multi handle
  let s1 := { s with global_multi := r.2 }
  match massert r.1 with
  | some e => ({ state := s1, error := some e }, l1)
  | none =>
    let ref := get_ref s1 handle
    let ref1 := { ref with handle := { writefunction := WriteFunction.null,
                                       writedata := WriteData.null } }
    let cb_complete := ref1.multi.complete
    let cb_error := ref1.multi.error
    let s2 := R_ReleaseObject s1 ref1.multi.complete
    let s3 := R_ReleaseObject s2 ref1.multi.error
    let buf := ref1.multi.content
    let ref2 := { ref1 with locked := false }
    let ref3 := reset_multi ref2
    let s4 := set_ref s3 handle ref3
    let after :=
      if status = 0 then
        ({ l1 with total_success := l1.total_success + 1 },
         if Rf_isFunction cb_complete then
           (R_tryEval env { fn := cb_complete, handle_ptr := handle, is_error := false,
                            status := status, buf := buf, heap := s4.refs } s4).1
         else s4)
      else
        ({ l1 with total_fail := l1.total_fail + 1 },
         if Rf_isFunction cb_error then
           (R_tryEval env { fn := cb_error, handle_ptr := handle, is_error := true,
                            status := status, buf := buf, heap := s4.refs } s4).1
         else s4)
    let s5 := after.2
    let ref4 := get_ref s5 handle
    let ref5 := { ref4 with refCount := ref4.refCount - 1 }
    ({ state := set_ref s5 handle (clean_handle ref5), error := none }, after.1)

/-- The inner loop `do ... while (msgq > 0)` (multi.c, lines 92-148).  The
first argument bounds the number of rounds; `none` means the bound was hit. -/
def drain (env : Closures) : Nat → State → Locals → Option (Outcome × Locals)
  | 0, _, _ => none
  | fuel + 1, s, l =>
    let r := curl_multi_info_read s.global_multi
    let msgq := r.2.1
    let s1 := { s with global_multi := r.2.2 }
    match r.1 with
    | some m =>
      let d := dispatch env s1 l m
      match d.1.error with
      | some _ => some d
      | none => if msgq > 0 then drain env fuel d.1.state d.2 else some d
    | none =>
      if msgq > 0 then drain env fuel s1 l else some ({ state := s1, error := none }, l)

/-- The loop `while(res == CURLM_CALL_MULTI_PERFORM)` (multi.c, lines 82-84):
one scripted event per call; `none` when the script ends while the engine
still asks to be called again. -/
def perform_loop : List PerformEvent → CURLM → Option (CURLMcode × Int × CURLM)
  | [], _ => none
  | ev :: rest, m =>
    let r := curl_multi_perform m ev
    if r.1 = CURLM_CALL_MULTI_PERFORM then perform_loop rest r.2.2 else some r

/-- What the outside world supplies to one iteration of the outer loop: the
answer of `pending_interrupt`, the behaviour of the successive calls of
`curl_multi_perform`, and the elapsed time read after the drain. -/
structure Iteration where
  interrupt : Bool
  performs : List PerformEvent
  seconds_elapsed : Int
  deriving DecidableEq

/-- Why the outer loop ended. -/
inductive Stop where
  | interrupted
  | multi_failed
  | timed_out
  | finished
  | raised
  deriving DecidableEq

/-- What `R_multi_run` leaves behind: the state, the R error if one escaped,
the three counts of the returned list, why the loop ended, and the part of the
script that was not consumed. -/
structure RunResult where
  state : State
  error : Option RError
  success : Int
  fail : Int
  pending : Int
  stop : Stop
  rest : List Iteration

/-- The outer loop `do ... while((dirty || total_pending) && time_max)`
(multi.c, lines 77-156), one scripted iteration per round; `none` when the
script ends before the loop does. -/
def run_loop (env : Closures) (time_max : Int) :
    List Iteration → State → Locals → Option RunResult
  | [], _, _ => none
  | it :: rest, s, l =>
    let l1 := { l with dirty := false }
    if it.interrupt then
      some { state := s, error := none, success := l1.total_success, fail := l1.total_fail,
             pending := l1.total_pending, stop := Stop.interrupted, rest := rest }
    else
      match perform_loop it.performs s.global_multi with
      | none => none
      | some r =>
        let s1 := { s with global_multi := r.2.2 }
        let l2 := { l1 with total_pending := r.2.1 }
        if r.1 ≠ CURLM_OK then
          some { state := s1, error := none, success := l2.total_success,
                 fail := l2.total_fail, pending := l2.total_pending,
                 stop := Stop.multi_failed, rest := rest }
        else
          match drain env (s1.global_multi.msgs.length + 1) s1 l2 with
          | none => none
          | some d =>
            match d.1.error with
            | some e =>
              some { state := d.1.state, error := some e, success := d.2.total_success,
                     fail := d.2.total_fail, pending := d.2.total_pending,
                     stop := Stop.raised, rest := rest }
            | none =>
              if time_max > 0 ∧ it.seconds_elapsed > time_max then
                some { state := d.1.state, error := none, success := d.2.total_success,
                       fail := d.2.total_fail, pending := d.2.total_pending,
                       stop := Stop.timed_out, rest := rest }
              else if (d.2.dirty || d.2.total_pending != 0) && time_max != 0 then
                run_loop env time_max rest d.1.state d.2
              else
                some { state := d.1.state, error := none, success := d.2.total_success,
                       fail := d.2.total_fail, pending := d.2.total_pending,
                       stop := Stop.finished, rest := rest }

/-- Which optional engine features the library was compiled with
(`CURLPIPE_MULTIPLEX`, `HAS_CURLMOPT_MAX_TOTAL_CONNECTIONS`). -/
structure Features where
  has_multiplex : Bool
  has_max_total_connections : Bool
  deriving DecidableEq

/-- The configuration block of `R_multi_run` (multi.c, lines 59-67); libcurl
accepts these three options with any value. -/
def configure (f : Features) (m : CURLM) (total_con host_con : Int) (multiplex : Bool) : CURLM :=
  let m1 := if f.has_multiplex && multiplex then { m with pipelining := true } else m
  if f.has_max_total_connections then
    { m1 with max_total_connections := total_con, max_host_connections := host_con }
  else m1

/-- The function `R_multi_run` (multi.c, lines 57-170). -/
def R_multi_run (f : Features) (env : Closures) (script : List Iteration) (s : State)
    (timeout total_con host_con : Int) (multiplex : Bool) : Option RunResult :=
  let s1 := { s with global_multi := configure f s.global_multi total_con host_con multiplex }
  run_loop env timeout script s1
    { total_pending := 0, total_success := 0, total_fail := 0, dirty := false }

/-! ## The three phases of a dispatch -/

/-- The state in which the dispatcher enters the callback of message `m`
(multi.c, line 120): handle removed from the engine, sink detached, callbacks
released, reference unlocked and reset. -/
def dispatch_entry (s : State) (m : CURLMsg) : State :=
  { refs := Function.update s.refs m.easy_handle
      (reset_multi { s.refs m.easy_handle with
                     handle := { writefunction := WriteFunction.null,
                                 writedata := WriteData.null },
                     locked := false }),
    global_multi := (curl_multi_remove_handle s.global_multi m.easy_handle).2,
    precious := (s.precious.erase (s.refs m.easy_handle).multi.complete).erase
                  (s.refs m.easy_handle).multi.error,
    trace := s.trace }

/-- The callback call the dispatcher makes for message `m`, if the callback
selected by the status is a function. -/
def dispatch_call (s : State) (m : CURLMsg) : Option Call :=
  let cb := if m.result = 0 then (s.refs m.easy_handle).multi.complete
            else (s.refs m.easy_handle).multi.error
  if Rf_isFunction cb then
    some { fn := cb, handle_ptr := m.easy_handle, is_error := decide (m.result ≠ 0),
           status := m.result, buf := (s.refs m.easy_handle).multi.content,
           heap := (dispatch_entry s m).refs }
  else none

/-- The state after the callback phase of the dispatch of `m`. -/
def dispatch_called (env : Closures) (s : State) (m : CURLMsg) : State :=
  match dispatch_call s m with
  | some c => (R_tryEval env c (dispatch_entry s m)).1
  | none => dispatch_entry s m

/-- The cleanup after the callback (multi.c, lines 145-146). -/
def dispatch_exit (s : State) (handle : Nat) : State :=
  set_ref s handle
    (clean_handle { s.refs handle with refCount := (s.refs handle).refCount - 1 })

/-- The counters after the dispatch of `m`. -/
def dispatch_count (l : Locals) (m : CURLMsg) : Locals :=
  if m.result = 0 then { l with dirty := true, total_success := l.total_success + 1 }
  else { l with dirty := true, total_fail := l.total_fail + 1 }

/-! ## Properties of states used in the statements -/

/-- The invariant `busy ⇒ locked` over all references. -/
def busy_implies_locked (refs : Nat → Reference) : Prop :=
  ∀ h, (refs h).multi.busy = true → (refs h).locked = true

/-- Every handle in the active set of the engine belongs to a locked
reference. -/
def active_implies_locked (s : State) : Prop :=
  ∀ h, h ∈ s.global_multi.handles → (s.refs h).locked = true

/-- The internal consistency of the engine: no handle is active twice, no
handle has two messages, and every message belongs to an active handle. -/
def engine_consistent (m : CURLM) : Prop :=
  m.handles.Nodup ∧ (m.msgs.map CURLMsg.easy_handle).Nodup ∧
    ∀ x ∈ m.msgs, x.easy_handle ∈ m.handles

instance (m : CURLM) : Decidable (engine_consistent m) := by
  unfold engine_consistent
  infer_instance

/-- No closure touches the scheduler: every action of every body is `stop`. -/
def only_stop (env : Closures) : Prop :=
  ∀ id, ∀ a ∈ env id, a = Action.stop

/-- A fresh reference, as `curl::new_handle` makes it. -/
def ref0 : Reference :=
  { handle := { writefunction := WriteFunction.null, writedata := WriteData.null },
    locked := false, refCount := 1,
    multi := { busy := false, content := [], complete := SEXP.nil, error := SEXP.nil },
    freed := false }

/-- A fresh multi handle. -/
def multi0 : CURLM :=
  { handles := [], msgs := [], pipelining := false, max_total_connections := 0,
    max_host_connections := 0 }

/-- A process in which nothing has been submitted. -/
def state0 : State :=
  { refs := fun _ => ref0, global_multi := multi0, precious := [], trace := [] }

/-- The process after handle 0 was submitted with closure 1 as `complete`
callback and closure 2 as `error` callback. -/
def state1 : State :=
  (R_multi_add state0 0 (SEXP.closure 1) (SEXP.closure 2)).state

/-- A library built with both optional features. -/
def features0 : Features :=
  { has_multiplex := true, has_max_total_connections := true }

/-- An R session whose closures all have an empty body. -/
def env0 : Closures := fun _ => []

/-- An R session whose closures all raise an error at once. -/
def env_raise : Closures := fun _ => [Action.stop]

/-- An R session in which closure 1 submits handle 1 without callbacks. -/
def env_submit : Closures :=
  fun id => if id = 1 then [Action.multi_add 1 SEXP.nil SEXP.nil] else []

/-- An iteration in which the engine finishes the transfers `done`. -/
def pass (done : List CURLMsg) : Iteration :=
  { interrupt := false, performs := [{ res := CURLM_OK, done := done }], seconds_elapsed := 0 }

/-- An iteration that finds the interrupt flag set. -/
def interrupted_pass : Iteration :=
  { interrupt := true, performs := [], seconds_elapsed := 0 }

/-! ## Facts about the engine -/

/-- Removing a handle never makes `massert` raise. -/
theorem massert_remove (m : CURLM) (h : Nat) : massert (curl_multi_remove_handle m h).1 = none := by
  simp [massert, curl_multi_remove_handle]

/-- Cancelling a reference that is not busy does nothing. -/
theorem R_multi_cancel_idle (s : State) (r : Nat) (h : (s.refs r).multi.busy = false) :
    R_multi_cancel s r = { state := s, error := none } := by
  simp [R_multi_cancel, get_ref, h]

/-- The state after cancelling a busy reference. -/
theorem R_multi_cancel_busy (s : State) (r : Nat) (h : (s.refs r).multi.busy = true) :
    R_multi_cancel s r =
      { state :=
          { refs := Function.update s.refs r
              (clean_handle { reset_multi (s.refs r) with
                              locked := false, refCount := (s.refs r).refCount - 1 }),
            global_multi := (curl_multi_remove_handle s.global_multi r).2,
            precious := (s.precious.erase (s.refs r).multi.complete).erase (s.refs r).multi.error,
            trace := s.trace },
        error := none } := by
  simp [R_multi_cancel, get_ref, h, massert_remove, set_ref, R_ReleaseObject, reset_multi]

/-- Submitting a locked reference raises and changes nothing. -/
theorem R_multi_add_locked (s : State) (r : Nat) (c e : SEXP) (h : (s.refs r).locked = true) :
    R_multi_add s r c e = { state := s, error := some RError.handle_locked } := by
  simp [R_multi_add, get_ref, h]

/-- The state after submitting an unlocked reference whose handle the engine does
not hold. -/
theorem R_multi_add_unlocked (s : State) (r : Nat) (c e : SEXP) (h : (s.refs r).locked = false)
    (hr : r ∉ s.global_multi.handles) :
    R_multi_add s r c e =
      { state :=
          { refs := Function.update s.refs r
              { handle := { writefunction := WriteFunction.append_buffer,
                            writedata := WriteData.multi_content },
                locked := true,
                refCount := (s.refs r).refCount + 1,
                multi := { busy := true, content := (s.refs r).multi.content,
                           complete := c, error := e },
                freed := (s.refs r).freed },
            global_multi := { s.global_multi with handles := r :: s.global_multi.handles },
            precious := e :: c :: s.precious,
            trace := s.trace },
        error := none } := by
  simp [R_multi_add, get_ref, h, hr, massert, set_ref, R_PreserveObject, curl_multi_add_handle]

/-- An unlocked reference whose handle the engine already holds: only the sink is
set before `massert` raises. -/
theorem R_multi_add_refused (s : State) (r : Nat) (c e : SEXP) (h : (s.refs r).locked = false)
    (hr : r ∈ s.global_multi.handles) :
    R_multi_add s r c e =
      { state := set_ref s r { s.refs r with
                     handle := { writefunction := WriteFunction.append_buffer,
                                 writedata := WriteData.multi_content } },
        error := some (RError.multi_error CURLM_ADDED_ALREADY) } := by
  simp [R_multi_add, get_ref, h, hr, massert, set_ref, curl_multi_add_handle]

/-! ## Facts about the dispatcher -/

/-- A dispatch is its three phases in sequence, and never raises. -/
theorem dispatch_eq (env : Closures) (s : State) (l : Locals) (m : CURLMsg) :
    dispatch env s l m =
      ({ state := dispatch_exit (dispatch_called env s m) m.easy_handle, error := none },
       dispatch_count l m) := by
  unfold dispatch
  simp only [massert_remove]
  by_cases h0 : m.result = 0
  · cases hf : Rf_isFunction (s.refs m.easy_handle).multi.complete <;>
      simp [h0, hf, dispatch_exit, dispatch_called, dispatch_call, dispatch_entry,
        dispatch_count, get_ref, set_ref, R_ReleaseObject, reset_multi]
  · cases hf : Rf_isFunction (s.refs m.easy_handle).multi.error <;>
      simp [h0, hf, dispatch_exit, dispatch_called, dispatch_call, dispatch_entry,
        dispatch_count, get_ref, set_ref, R_ReleaseObject, reset_multi]

/-! ## Facts about callbacks -/

/-- A submission invokes no callback. -/
theorem R_multi_add_trace (s : State) (h : Nat) (c e : SEXP) :
    (R_multi_add s h c e).state.trace = s.trace := by
  cases hl : (s.refs h).locked
  · by_cases hr : h ∈ s.global_multi.handles
    · simp [R_multi_add_refused s h c e hl hr, set_ref]
    · simp [R_multi_add_unlocked s h c e hl hr]
  · simp [R_multi_add_locked s h c e hl]

/-- A cancellation invokes no callback. -/
theorem R_multi_cancel_trace (s : State) (h : Nat) :
    (R_multi_cancel s h).state.trace = s.trace := by
  cases hb : (s.refs h).multi.busy
  · simp [R_multi_cancel_idle s h hb]
  · simp [R_multi_cancel_busy s h hb]

/-- Induction principle for callback bodies: what every submission and every
cancellation of the body preserves, the body preserves. -/
theorem eval_body_induct (I : State → Prop) (acts : List Action)
    (hadd : ∀ s h c e, Action.multi_add h c e ∈ acts → I s → I (R_multi_add s h c e).state)
    (hcancel : ∀ s h, Action.multi_cancel h ∈ acts → I s → I (R_multi_cancel s h).state) :
    ∀ s, I s → I (eval_body acts s).1 := by
  induction acts with
  | nil => intro s hs; simpa [eval_body] using hs
  | cons a rest ih =>
    have ih1 := ih (fun s h c e hm => hadd s h c e (List.mem_cons_of_mem _ hm))
      (fun s h hm => hcancel s h (List.mem_cons_of_mem _ hm))
    intro s hs
    cases a with
    | stop => simpa [eval_body] using hs
    | multi_add h c e =>
      have h1 := hadd s h c e (List.mem_cons_self _ _) hs
      unfold eval_body
      split
      · exact h1
      · exact ih1 _ h1
    | multi_cancel h =>
      have h1 := hcancel s h (List.mem_cons_self _ _) hs
      unfold eval_body
      split
      · exact h1
      · exact ih1 _ h1

/-- The body of a callback invokes no further callback. -/
theorem eval_body_trace (acts : List Action) (s : State) :
    (eval_body acts s).1.trace = s.trace :=
  eval_body_induct (fun x => x.trace = s.trace) acts
    (fun x h c e _ hx => (R_multi_add_trace x h c e).trans hx)
    (fun x h _ hx => (R_multi_cancel_trace x h).trans hx) s rfl

/-- The callback phase records exactly the call made, if any. -/
theorem dispatch_called_trace (env : Closures) (s : State) (m : CURLMsg) :
    (dispatch_called env s m).trace = s.trace ++ (dispatch_call s m).toList := by
  unfold dispatch_called
  cases dispatch_call s m with
  | none => simp [dispatch_entry]
  | some c => simp [R_tryEval, eval_body_trace, dispatch_entry]

/-- A dispatch records exactly the call made, if any. -/
theorem dispatch_trace (env : Closures) (s : State) (l : Locals) (m : CURLMsg) :
    (dispatch env s l m).1.state.trace = s.trace ++ (dispatch_call s m).toList := by
  rw [dispatch_eq]
  simp [dispatch_exit, set_ref, dispatch_called_trace]

/-! ## Induction over the loops -/

/-- What every call of `curl_multi_perform` preserves, the retry loop preserves. -/
theorem perform_loop_induct (I : CURLM → Prop)
    (hstep : ∀ m ev, I m → I (curl_multi_perform m ev).2.2) :
    ∀ evs m r, I m → perform_loop evs m = some r → I r.2.2 := by
  intro evs
  induction evs with
  | nil => intro m r _ h; simp [perform_loop] at h
  | cons ev rest ih =>
    intro m r hm h
    unfold perform_loop at h
    simp only at h
    split at h
    · exact ih _ _ (hstep m ev hm) h
    · cases h; exact hstep m ev hm

/-- What the dispatch of the head of the queue preserves, the drain preserves. -/
theorem drain_induct (env : Closures) (Q : State → Locals → Prop)
    (hstep : ∀ s l m rest, Q s l → s.global_multi.msgs = m :: rest →
      Q (dispatch env { s with global_multi := { s.global_multi with msgs := rest } } l m).1.state
        (dispatch env { s with global_multi := { s.global_multi with msgs := rest } } l m).2) :
    ∀ fuel s l d, Q s l → drain env fuel s l = some d → Q d.1.state d.2 := by
  intro fuel
  induction fuel with
  | zero => intro s l d _ h; simp [drain] at h
  | succ n ih =>
    intro s l d hq h
    unfold drain at h
    cases hm : s.global_multi.msgs with
    | nil =>
      simp [curl_multi_info_read, hm] at h
      cases h
      exact hq
    | cons m rest =>
      have hs := hstep s l m rest hq hm
      simp only [curl_multi_info_read, hm] at h
      split at h
      · cases h; exact hs
      · split at h
        · exact ih _ _ _ hs h
        · cases h; exact hs
/-- What `curl_multi_perform` and the dispatch of the head of the queue preserve,
the outer loop preserves. -/
theorem run_loop_induct (env : Closures) (t : Int) (I : State → Prop)
    (hperf : ∀ s ev, I s →
      I { s with global_multi := (curl_multi_perform s.global_multi ev).2.2 })
    (hdisp : ∀ s l m rest, I s → s.global_multi.msgs = m :: rest →
      I (dispatch env { s with global_multi := { s.global_multi with msgs := rest } }
          l m).1.state) :
    ∀ script s l res, I s → run_loop env t script s l = some res → I res.state := by
  intro script
  induction script with
  | nil => intro s l res _ h; simp [run_loop] at h
  | cons it rest ih =>
    intro s l res hs h
    unfold run_loop at h
    simp only at h
    split at h
    · cases h; exact hs
    · split at h
      · cases h
      · rename_i r hr
        have h1 : I { s with global_multi := r.2.2 } :=
          perform_loop_induct (fun m => I { s with global_multi := m })
            (fun m ev hm => hperf { s with global_multi := m } ev hm) _ _ _ hs hr
        split at h
        · cases h; exact h1
        · split at h
          · cases h
          · rename_i d hd
            have h2 : I d.1.state :=
              drain_induct env (fun x _ => I x) (fun x l m rest hx hm => hdisp x l m rest hx hm)
                _ _ _ _ h1 hd
            split at h
            · cases h; exact h2
            · split at h
              · cases h; exact h2
              · split at h
                · exact ih _ _ _ h2 h
                · cases h; exact h2

/-- Induction principle for `R_multi_run`. -/
theorem R_multi_run_induct (f : Features) (env : Closures) (I : State → Prop)
    (hconf : ∀ s m, I s → m.handles = s.global_multi.handles → m.msgs = s.global_multi.msgs →
      I { s with global_multi := m })
    (hperf : ∀ s ev, I s →
      I { s with global_multi := (curl_multi_perform s.global_multi ev).2.2 })
    (hdisp : ∀ s l m rest, I s → s.global_multi.msgs = m :: rest →
      I (dispatch env { s with global_multi := { s.global_multi with msgs := rest } }
          l m).1.state)
    (script : List Iteration) (s : State) (t tc hc : Int) (mp : Bool) (res : RunResult)
    (hs : I s) (h : R_multi_run f env script s t tc hc mp = some res) : I res.state := by
  unfold R_multi_run at h
  refine run_loop_induct env t I hperf hdisp _ _ _ _ (hconf s _ hs ?_ ?_) h
  · unfold configure; split <;> split <;> rfl
  · unfold configure; split <;> split <;> rfl

/-! ## Handles unknown to the engine -/

/-- Finishing a transfer leaves the active set alone. -/
theorem finish_transfer_handles (m : CURLM) (d : CURLMsg) :
    (finish_transfer m d).handles = m.handles := by
  unfold finish_transfer; split <;> rfl

/-- The fields of the call a dispatch makes. -/
theorem dispatch_call_some (s : State) (m : CURLMsg) (c : Call)
    (h : dispatch_call s m = some c) :
    c.handle_ptr = m.easy_handle ∧ c.is_error = decide (m.result ≠ 0) ∧
    c.heap = (dispatch_entry s m).refs ∧
    c.fn = (if m.result = 0 then (s.refs m.easy_handle).multi.complete
            else (s.refs m.easy_handle).multi.error) := by
  unfold dispatch_call at h
  by_cases h0 : m.result = 0
  · cases hf : Rf_isFunction (s.refs m.easy_handle).multi.complete
    · simp [h0, hf] at h
    · simp only [h0, hf, if_true] at h
      cases h
      simp [h0]
  · cases hf : Rf_isFunction (s.refs m.easy_handle).multi.error
    · simp [h0, hf] at h
    · simp only [h0, hf, if_true, if_false] at h
      cases h
      simp [h0]

/-- Overwriting one reference by one that satisfies the invariant. -/
theorem busy_implies_locked_update (refs : Nat → Reference) (h : Nat) (ref : Reference)
    (hinv : busy_implies_locked refs) (href : ref.multi.busy = true → ref.locked = true) :
    busy_implies_locked (Function.update refs h ref) := by
  intro k hk
  by_cases hkh : k = h
  · subst hkh
    simp only [Function.update_same] at hk ⊢
    exact href hk
  · simp only [Function.update_noteq hkh] at hk ⊢
    exact hinv k hk

/-- A submission preserves busy implies locked. -/
theorem busy_implies_locked_add (s : State) (h : Nat) (c e : SEXP)
    (hinv : busy_implies_locked s.refs) :
    busy_implies_locked (R_multi_add s h c e).state.refs := by
  cases hl : (s.refs h).locked
  · by_cases hr : h ∈ s.global_multi.handles
    · simp only [R_multi_add_refused s h c e hl hr, set_ref]
      apply busy_implies_locked_update _ _ _ hinv
      intro hb
      have := hinv h hb
      simp [hl] at this
    · simp only [R_multi_add_unlocked s h c e hl hr]
      exact busy_implies_locked_update _ _ _ hinv (fun _ => rfl)
  · simpa [R_multi_add_locked s h c e hl] using hinv

/-- A cancellation preserves busy implies locked. -/
theorem busy_implies_locked_cancel (s : State) (h : Nat)
    (hinv : busy_implies_locked s.refs) :
    busy_implies_locked (R_multi_cancel s h).state.refs := by
  cases hb : (s.refs h).multi.busy
  · simpa [R_multi_cancel_idle s h hb] using hinv
  · simp only [R_multi_cancel_busy s h hb]
    apply busy_implies_locked_update _ _ _ hinv
    intro hb1
    simp only [clean_handle, reset_multi] at hb1
    split at hb1 <;> simp at hb1

/-- A callback body preserves busy implies locked. -/
theorem busy_implies_locked_eval_body (acts : List Action) (s : State)
    (hinv : busy_implies_locked s.refs) :
    busy_implies_locked (eval_body acts s).1.refs :=
  eval_body_induct (fun x => busy_implies_locked x.refs) acts
    (fun x h c e _ hx => busy_implies_locked_add x h c e hx)
    (fun x h _ hx => busy_implies_locked_cancel x h hx) s hinv

/-- The invariant holds when the dispatcher enters the callback. -/
theorem busy_implies_locked_entry (s : State) (m : CURLMsg)
    (hinv : busy_implies_locked s.refs) :
    busy_implies_locked (dispatch_entry s m).refs := by
  simp only [dispatch_entry]
  apply busy_implies_locked_update _ _ _ hinv
  intro hb
  simp [reset_multi] at hb

/-- The invariant holds when the callback has returned. -/
theorem busy_implies_locked_called (env : Closures) (s : State) (m : CURLMsg)
    (hinv : busy_implies_locked s.refs) :
    busy_implies_locked (dispatch_called env s m).refs := by
  unfold dispatch_called
  cases dispatch_call s m with
  | none => exact busy_implies_locked_entry s m hinv
  | some c =>
    simp only [R_tryEval]
    exact busy_implies_locked_eval_body _ _ (busy_implies_locked_entry s m hinv)

/-- A dispatch preserves busy implies locked. -/
theorem busy_implies_locked_dispatch (env : Closures) (s : State) (l : Locals) (m : CURLMsg)
    (hinv : busy_implies_locked s.refs) :
    busy_implies_locked (dispatch env s l m).1.state.refs := by
  rw [dispatch_eq]
  simp only [dispatch_exit, set_ref]
  have h1 := busy_implies_locked_called env s m hinv
  apply busy_implies_locked_update _ _ _ h1
  intro hb
  simp only [clean_handle] at hb ⊢
  split at hb <;> split <;> exact h1 _ hb

/-! ## Termination of the loops -/

/-- A submission leaves the message queue alone. -/
theorem msgs_length_add (s : State) (h : Nat) (c e : SEXP) :
    (R_multi_add s h c e).state.global_multi.msgs = s.global_multi.msgs := by
  cases hl : (s.refs h).locked
  · by_cases hr : h ∈ s.global_multi.handles
    · simp [R_multi_add_refused s h c e hl hr, set_ref]
    · simp [R_multi_add_unlocked s h c e hl hr]
  · simp [R_multi_add_locked s h c e hl]

/-- A cancellation does not lengthen the message queue. -/
theorem msgs_length_cancel (s : State) (h : Nat) :
    (R_multi_cancel s h).state.global_multi.msgs.length ≤ s.global_multi.msgs.length := by
  cases hb : (s.refs h).multi.busy
  · simp [R_multi_cancel_idle s h hb]
  · simp only [R_multi_cancel_busy s h hb, curl_multi_remove_handle]
    exact List.length_filter_le _ _

/-- A callback body does not lengthen the message queue. -/
theorem msgs_length_eval_body (acts : List Action) (s : State) :
    (eval_body acts s).1.global_multi.msgs.length ≤ s.global_multi.msgs.length :=
  eval_body_induct (fun x => x.global_multi.msgs.length ≤ s.global_multi.msgs.length) acts
    (fun x h c e _ hx => by simp only [msgs_length_add]; exact hx)
    (fun x h _ hx => le_trans (msgs_length_cancel x h) hx) s le_rfl

/-- A dispatch does not lengthen the message queue. -/
theorem msgs_length_dispatch (env : Closures) (s : State) (l : Locals) (m : CURLMsg) :
    (dispatch env s l m).1.state.global_multi.msgs.length ≤ s.global_multi.msgs.length := by
  rw [dispatch_eq]
  simp only [dispatch_exit, set_ref]
  have he : (dispatch_entry s m).global_multi.msgs.length ≤ s.global_multi.msgs.length := by
    simp only [dispatch_entry, curl_multi_remove_handle]
    exact List.length_filter_le _ _
  unfold dispatch_called
  cases dispatch_call s m with
  | none => exact he
  | some c =>
    simp only [R_tryEval]
    exact le_trans (msgs_length_eval_body _ _) he

/-- A dispatch never raises. -/
theorem dispatch_error (env : Closures) (s : State) (l : Locals) (m : CURLMsg) :
    (dispatch env s l m).1.error = none := by
  rw [dispatch_eq]

/-- The drain ends within one round per queued message, plus one. -/
theorem drain_total (env : Closures) :
    ∀ fuel s l, s.global_multi.msgs.length < fuel → ∃ d, drain env fuel s l = some d := by
  intro fuel
  induction fuel with
  | zero => intro s l h; simp at h
  | succ n ih =>
    intro s l h
    unfold drain
    cases hm : s.global_multi.msgs with
    | nil => simp [curl_multi_info_read, hm]
    | cons m rest =>
      simp only [curl_multi_info_read, hm, dispatch_error]
      split
      · apply ih
        have h1 := msgs_length_dispatch env
          { s with global_multi := { s.global_multi with msgs := rest } } l m
        simp only [hm, List.length_cons] at h
        simp only at h1
        omega
      · exact ⟨_, rfl⟩

/-- The drain never raises and leaves the queue empty. -/
theorem drain_spec (env : Closures) :
    ∀ fuel s l d, drain env fuel s l = some d →
      d.1.error = none ∧ d.1.state.global_multi.msgs = [] := by
  intro fuel
  induction fuel with
  | zero => intro s l d h; simp [drain] at h
  | succ n ih =>
    intro s l d h
    unfold drain at h
    cases hm : s.global_multi.msgs with
    | nil =>
      simp [curl_multi_info_read, hm] at h
      cases h
      exact ⟨rfl, hm⟩
    | cons m rest =>
      simp only [curl_multi_info_read, hm, dispatch_error] at h
      split at h
      · exact ih _ _ _ h
      · rename_i hq
        cases h
        refine ⟨dispatch_error _ _ _ _, ?_⟩
        have h1 := msgs_length_dispatch env
          { s with global_multi := { s.global_multi with msgs := rest } } l m
        simp only at h1
        have h2 : rest.length = 0 := by omega
        rw [h2] at h1
        exact List.length_eq_zero.mp (Nat.le_zero.mp h1)

/-- The retry loop ends when some scripted call does not ask for another. -/
theorem perform_loop_total (evs : List PerformEvent) (m : CURLM)
    (h : ∃ ev ∈ evs, ev.res ≠ CURLM_CALL_MULTI_PERFORM) :
    ∃ r, perform_loop evs m = some r := by
  induction evs generalizing m with
  | nil => simp at h
  | cons ev rest ih =>
    unfold perform_loop
    simp only
    split
    · rename_i hc
      apply ih
      obtain ⟨x, hx, hne⟩ := h
      rcases List.mem_cons.mp hx with hx | hx
      · subst hx
        simp [curl_multi_perform] at hc
        exact absurd hc hne
      · exact ⟨x, hx, hne⟩
    · exact ⟨_, rfl⟩

/-! ## Callbacks that only raise -/

/-- A body made of `stop` leaves the state alone. -/
theorem eval_body_only_stop (acts : List Action) (s : State)
    (h : ∀ a ∈ acts, a = Action.stop) : (eval_body acts s).1 = s := by
  cases acts with
  | nil => rfl
  | cons a rest =>
    have ha := h a (List.mem_cons_self _ _)
    subst ha
    rfl

/-- A callback that at most raises only leaves its record in the trace. -/
theorem R_tryEval_only_stop (env : Closures) (henv : only_stop env) (c : Call) (s : State) :
    (R_tryEval env c s).1 = { s with trace := s.trace ++ [c] } := by
  unfold R_tryEval
  apply eval_body_only_stop
  cases c.fn with
  | nil => simp [body]
  | closure id => exact henv id

/-- The callback phase when callbacks at most raise. -/
theorem dispatch_called_only_stop (env : Closures) (henv : only_stop env) (s : State)
    (m : CURLMsg) :
    dispatch_called env s m =
      { dispatch_entry s m with trace := s.trace ++ (dispatch_call s m).toList } := by
  unfold dispatch_called
  cases dispatch_call s m with
  | none => simp [dispatch_entry]
  | some c => simp [R_tryEval_only_stop env henv, dispatch_entry]

/-- A dispatch does not depend on which callbacks raise. -/
theorem dispatch_only_stop (env1 env2 : Closures) (h1 : only_stop env1) (h2 : only_stop env2)
    (s : State) (l : Locals) (m : CURLMsg) :
    dispatch env1 s l m = dispatch env2 s l m := by
  rw [dispatch_eq, dispatch_eq, dispatch_called_only_stop env1 h1,
    dispatch_called_only_stop env2 h2]

/-- The drain does not depend on which callbacks raise. -/
theorem drain_only_stop (env1 env2 : Closures) (h1 : only_stop env1) (h2 : only_stop env2) :
    ∀ fuel s l, drain env1 fuel s l = drain env2 fuel s l := by
  intro fuel
  induction fuel with
  | zero => intro s l; rfl
  | succ n ih =>
    intro s l
    unfold drain
    simp only [dispatch_only_stop env1 env2 h1 h2, ih]

/-- The outer loop does not depend on which callbacks raise. -/
theorem run_loop_only_stop (env1 env2 : Closures) (h1 : only_stop env1) (h2 : only_stop env2)
    (t : Int) : ∀ script s l, run_loop env1 t script s l = run_loop env2 t script s l := by
  intro script
  induction script with
  | nil => intro s l; rfl
  | cons it rest ih =>
    intro s l
    unfold run_loop
    simp only [drain_only_stop env1 env2 h1 h2, ih]

/-- The outer loop never raises. -/
theorem run_loop_error (env : Closures) (t : Int) :
    ∀ script s l res, run_loop env t script s l = some res → res.error = none := by
  intro script
  induction script with
  | nil => intro s l res h; simp [run_loop] at h
  | cons it rest ih =>
    intro s l res h
    unfold run_loop at h
    simp only at h
    split at h
    · cases h; rfl
    · split at h
      · cases h
      · split at h
        · cases h; rfl
        · split at h
          · cases h
          · rename_i d hd
            simp only [(drain_spec env _ _ _ _ hd).1] at h
            split at h
            · cases h; rfl
            · split at h
              · exact ih _ _ _ h
              · cases h; rfl

/-! ## A locked reference during a callback -/

/-- A handle has a message when a queued message names it. -/
theorem has_msg_eq_true (m : CURLM) (h : Nat) :
    has_msg m h = true ↔ h ∈ m.msgs.map CURLMsg.easy_handle := by
  simp [has_msg]

/-- In a consistent engine, running transfers plus queued messages make up the
active set. -/
theorem running_handles_eq (m : CURLM) (hc : engine_consistent m) :
    running_handles m + m.msgs.length = m.handles.length := by
  obtain ⟨h1, h2, h3⟩ := hc
  have hperm : (m.handles.filter (fun h => has_msg m h)).Perm (m.msgs.map CURLMsg.easy_handle) := by
    rw [List.perm_ext_iff_of_nodup (h1.filter _) h2]
    intro a
    simp only [List.mem_filter, has_msg_eq_true]
    constructor
    · exact fun h => h.2
    · intro h
      refine ⟨?_, h⟩
      obtain ⟨x, hx, rfl⟩ := List.mem_map.mp h
      exact h3 x hx
  have hlen := hperm.length_eq
  rw [List.length_map] at hlen
  have hsplit := List.length_eq_length_filter_add (l := m.handles) (fun h => has_msg m h)
  unfold running_handles
  omega

/-- Finishing a transfer keeps the engine consistent. -/
theorem engine_consistent_finish (m : CURLM) (d : CURLMsg) (hc : engine_consistent m) :
    engine_consistent (finish_transfer m d) := by
  unfold finish_transfer
  split
  · rename_i hd
    obtain ⟨h1, h2, h3⟩ := hc
    refine ⟨h1, ?_, ?_⟩
    · simp only [List.map_append, List.map_cons, List.map_nil]
      rw [List.nodup_append]
      refine ⟨h2, List.nodup_singleton _, ?_⟩
      intro a ha hb
      rw [List.mem_singleton] at hb
      subst hb
      have := hd.2
      rw [← Bool.not_eq_true, has_msg_eq_true] at this
      exact this ha
    · intro x hx
      simp only [List.mem_append, List.mem_singleton] at hx
      rcases hx with hx | hx
      · exact h3 x hx
      · subst hx; exact hd.1
  · exact hc

/-- A call of `curl_multi_perform` leaves the active set alone. -/
theorem perform_handles (m : CURLM) (ev : PerformEvent) :
    (curl_multi_perform m ev).2.2.handles = m.handles := by
  simp only [curl_multi_perform]
  generalize ev.done = ds
  induction ds generalizing m with
  | nil => rfl
  | cons d rest ih => simp only [List.foldl_cons, ih, finish_transfer_handles]

/-- A call of `curl_multi_perform` keeps the engine consistent. -/
theorem engine_consistent_perform (m : CURLM) (ev : PerformEvent) (hc : engine_consistent m) :
    engine_consistent (curl_multi_perform m ev).2.2 := by
  simp only [curl_multi_perform]
  generalize ev.done = ds
  induction ds generalizing m with
  | nil => exact hc
  | cons d rest ih => exact ih _ (engine_consistent_finish m d hc)

/-- The retry loop keeps the engine consistent and the active set, and reports
the number of running transfers. -/
theorem perform_loop_spec (evs : List PerformEvent) (m : CURLM) (r : CURLMcode × Int × CURLM)
    (hc : engine_consistent m) (h : perform_loop evs m = some r) :
    engine_consistent r.2.2 ∧ r.2.2.handles = m.handles ∧ r.2.1 = running_handles r.2.2 := by
  induction evs generalizing m with
  | nil => simp [perform_loop] at h
  | cons ev rest ih =>
    unfold perform_loop at h
    simp only at h
    split at h
    · have h1 := ih _ (engine_consistent_perform m ev hc) h
      exact ⟨h1.1, h1.2.1.trans (perform_handles m ev), h1.2.2⟩
    · cases h
      exact ⟨engine_consistent_perform m ev hc, perform_handles m ev, rfl⟩

/-- Removing the handle of the message just popped: the rest of the queue stays
and the active set loses exactly one handle. -/
theorem remove_popped (m : CURLM) (x : CURLMsg) (rest : List CURLMsg)
    (hc : engine_consistent m) (hm : m.msgs = x :: rest) :
    engine_consistent (curl_multi_remove_handle { m with msgs := rest } x.easy_handle).2 ∧
    (curl_multi_remove_handle { m with msgs := rest } x.easy_handle).2.msgs = rest ∧
    (curl_multi_remove_handle { m with msgs := rest } x.easy_handle).2.handles.length + 1
      = m.handles.length := by
  obtain ⟨h1, h2, h3⟩ := hc
  rw [hm, List.map_cons, List.nodup_cons] at h2
  have hx : x.easy_handle ∈ m.handles := h3 x (by rw [hm]; exact List.mem_cons_self _ _)
  have hrest : rest.filter (fun y => y.easy_handle != x.easy_handle) = rest := by
    rw [List.filter_eq_self]
    intro y hy
    have : y.easy_handle ≠ x.easy_handle := fun hh => h2.1 (hh ▸ List.mem_map_of_mem _ hy)
    simpa using this
  simp only [curl_multi_remove_handle, hrest]
  refine ⟨⟨h1.filter _, h2.2, ?_⟩, trivial, ?_⟩
  · intro y hy
    rw [List.mem_filter]
    refine ⟨h3 y (by rw [hm]; exact List.mem_cons_of_mem _ hy), ?_⟩
    have : y.easy_handle ≠ x.easy_handle := fun hh => h2.1 (hh ▸ List.mem_map_of_mem _ hy)
    simpa using this
  · rw [← h1.erase_eq_filter, List.length_erase_of_mem hx]
    have := List.length_pos_of_mem hx
    omega
/-- The engine and the counters after a dispatch whose callback at most raises. -/
theorem dispatch_engine_only_stop (env : Closures) (henv : only_stop env) (s : State)
    (l : Locals) (m : CURLMsg) :
    (dispatch env s l m).1.state.global_multi
      = (curl_multi_remove_handle s.global_multi m.easy_handle).2 ∧
    (dispatch env s l m).2 = dispatch_count l m := by
  rw [dispatch_eq, dispatch_called_only_stop env henv]
  simp [dispatch_exit, set_ref, dispatch_entry]

/-- A dispatch counts one more finished transfer. -/
theorem dispatch_count_sum (l : Locals) (m : CURLMsg) :
    (dispatch_count l m).total_success + (dispatch_count l m).total_fail
      = l.total_success + l.total_fail + 1 ∧
    (dispatch_count l m).total_pending = l.total_pending := by
  unfold dispatch_count
  split
  · exact ⟨by simp only; omega, rfl⟩
  · exact ⟨by simp only; omega, rfl⟩

/-- The drain conserves finished plus active transfers and ends with every
active transfer pending. -/
theorem drain_counts (env : Closures) (henv : only_stop env) (N : Int) (fuel : Nat)
    (s : State) (l : Locals) (d : Outcome × Locals)
    (hc : engine_consistent s.global_multi)
    (hsum : l.total_success + l.total_fail + s.global_multi.handles.length = N)
    (hpend : l.total_pending + s.global_multi.msgs.length = s.global_multi.handles.length)
    (h : drain env fuel s l = some d) :
    engine_consistent d.1.state.global_multi ∧
    d.2.total_success + d.2.total_fail + d.1.state.global_multi.handles.length = N ∧
    d.2.total_pending = d.1.state.global_multi.handles.length ∧
    d.1.state.global_multi.msgs = [] := by
  have hq := drain_induct env
    (fun x k => engine_consistent x.global_multi ∧
      k.total_success + k.total_fail + x.global_multi.handles.length = N ∧
      k.total_pending + x.global_multi.msgs.length = x.global_multi.handles.length)
    (by
      intro x k m rest hx hm
      obtain ⟨h1, h2, h3⟩ := hx
      have hr := remove_popped x.global_multi m rest h1 hm
      have hd := dispatch_engine_only_stop env henv
        { x with global_multi := { x.global_multi with msgs := rest } } k m
      have hs := dispatch_count_sum k m
      simp only [hd.1, hd.2]
      refine ⟨hr.1, ?_, ?_⟩
      · have := hr.2.2
        rw [hs.1]
        omega
      · rw [hs.2, hr.2.1]
        have := hr.2.2
        rw [hm, List.length_cons] at h3
        push_cast at h3
        omega)
    fuel s l d ⟨hc, hsum, hpend⟩ h
  have hnil := (drain_spec env fuel s l d h).2
  obtain ⟨h1, h2, h3⟩ := hq
  refine ⟨h1, h2, ?_, hnil⟩
  rw [hnil] at h3
  simpa using h3

/-- The outer loop conserves finished plus active transfers. -/
theorem run_loop_counts (env : Closures) (henv : only_stop env) (t : Int) (N : Int) :
    ∀ (script : List Iteration) (s : State) (l : Locals) (res : RunResult),
      engine_consistent s.global_multi →
      l.total_success + l.total_fail + s.global_multi.handles.length = N →
      ((s.global_multi.msgs = [] ∧ l.total_pending = s.global_multi.handles.length) ∨
        ∃ it rest, script = it :: rest ∧ it.interrupt = false) →
      run_loop env t script s l = some res →
      res.stop ≠ Stop.multi_failed →
      res.success + res.fail + res.pending = N := by
  intro script
  induction script with
  | nil => intro s l res _ _ _ h; simp [run_loop] at h
  | cons it rest ih =>
    intro s l res hc hsum hstart h hstop
    unfold run_loop at h
    simp only at h
    split at h
    · rename_i hi
      cases h
      rcases hstart with ⟨_, hp⟩ | ⟨it1, rest1, heq, hi1⟩
      · simp only; omega
      · cases heq
        simp [hi1] at hi
    · split at h
      · cases h
      · rename_i r hr
        have hp := perform_loop_spec it.performs s.global_multi r hc hr
        split at h
        · cases h
          exact absurd rfl hstop
        · split at h
          · cases h
          · rename_i d hd
            have hrun := running_handles_eq r.2.2 hp.1
            have hd1 := drain_counts env henv N _ _ _ d hp.1
              (by simp only [hp.2.1]; exact hsum)
              (by simp only [hp.2.2]; exact hrun) hd
            simp only [(drain_spec env _ _ _ _ hd).1] at h
            split at h
            · cases h
              simp only
              omega
            · split at h
              · exact ih _ _ _ hd1.1 hd1.2.1 (Or.inl ⟨hd1.2.2.2, hd1.2.2.1⟩) h hstop
              · cases h
                simp only
                omega

/-! ## Active handles are locked -/

/-- A submission keeps the active handles locked. -/
theorem active_implies_locked_add (s : State) (h : Nat) (c e : SEXP)
    (hinv : active_implies_locked s) : active_implies_locked (R_multi_add s h c e).state := by
  cases hl : (s.refs h).locked
  · by_cases hr : h ∈ s.global_multi.handles
    · have := hinv h hr
      simp [hl] at this
    · simp only [R_multi_add_unlocked s h c e hl hr]
      intro k hk
      by_cases hkh : k = h
      · subst hkh; simp
      · simp only [Function.update_noteq hkh]
        simp only [List.mem_cons] at hk
        exact hinv k (hk.resolve_left hkh)
  · simpa [R_multi_add_locked s h c e hl] using hinv

/-- Removing a handle and overwriting its reference keeps the active handles
locked. -/
theorem active_implies_locked_remove (s : State) (h : Nat) (ref : Reference) (x : State)
    (hinv : active_implies_locked s)
    (hrefs : x.refs = Function.update s.refs h ref)
    (hm : x.global_multi = (curl_multi_remove_handle s.global_multi h).2) :
    active_implies_locked x := by
  intro k hk
  rw [hm] at hk
  simp only [curl_multi_remove_handle, List.mem_filter, bne_iff_ne, ne_eq] at hk
  rw [hrefs, Function.update_noteq hk.2]
  exact hinv k hk.1

/-- A cancellation keeps the active handles locked. -/
theorem active_implies_locked_cancel (s : State) (h : Nat)
    (hinv : active_implies_locked s) : active_implies_locked (R_multi_cancel s h).state := by
  cases hb : (s.refs h).multi.busy
  · simpa [R_multi_cancel_idle s h hb] using hinv
  · simp only [R_multi_cancel_busy s h hb]
    exact active_implies_locked_remove s h _ _ hinv rfl rfl

/-- A dispatch keeps the active handles locked. -/
theorem active_implies_locked_dispatch (env : Closures) (s : State) (l : Locals) (m : CURLMsg)
    (hinv : active_implies_locked s) :
    active_implies_locked (dispatch env s l m).1.state := by
  rw [dispatch_eq]
  have he : active_implies_locked (dispatch_entry s m) :=
    active_implies_locked_remove s m.easy_handle _ _ hinv rfl rfl
  have hc : active_implies_locked (dispatch_called env s m) := by
    unfold dispatch_called
    cases dispatch_call s m with
    | none => exact he
    | some c =>
      simp only [R_tryEval]
      exact eval_body_induct active_implies_locked _
        (fun x h c e _ hx => active_implies_locked_add x h c e hx)
        (fun x h _ hx => active_implies_locked_cancel x h hx) _ he
  intro k hk
  simp only [dispatch_exit, set_ref] at hk ⊢
  by_cases hkh : k = m.easy_handle
  · subst hkh
    simp only [Function.update_same, clean_handle]
    split <;> exact hc _ hk
  · simp only [Function.update_noteq hkh]
    exact hc k hk

/-- That every handle of the active set is locked is an invariant of the
scheduler: it survives a submission, a cancellation and a run. -/
theorem active_implies_locked_preserved (s : State) (hinv : active_implies_locked s) :
    (∀ h c e, active_implies_locked (R_multi_add s h c e).state) ∧
    (∀ h, active_implies_locked (R_multi_cancel s h).state) ∧
    (∀ f env script t tc hc mp res, R_multi_run f env script s t tc hc mp = some res →
      active_implies_locked res.state) := by
  refine ⟨fun h c e => active_implies_locked_add s h c e hinv,
    fun h => active_implies_locked_cancel s h hinv, ?_⟩
  intro f env script t tc hc mp res hrun
  refine R_multi_run_induct f env active_implies_locked ?_ ?_ ?_ script s t tc hc mp res hinv hrun
  · intro x m hx hh _ k hk
    exact hx k (hh ▸ hk)
  · intro x ev hx k hk
    simp only [perform_handles] at hk
    exact hx k hk
  · intro x l m rest hx _
    exact active_implies_locked_dispatch env _ l m hx

/-! ## Submission -/

/-- C1: `R_multi_add` raises the locked-handle error if and only if the
reference is locked at call time, and a locked reference is rejected with the
state, engine included, untouched.  In a state where a handle of the active
set is locked (busy implies locked, and only busy handles are active) there is
no other failure: the submission raises an error if and only if the reference
is locked. -/
theorem R_multi_add_fails_iff_locked (s : State) (r : Nat) (c e : SEXP) :
    ((R_multi_add s r c e).error = some RError.handle_locked ↔ (s.refs r).locked = true) ∧
    ((s.refs r).locked = true →
      R_multi_add s r c e = { state := s, error := some RError.handle_locked }) ∧
    ((r ∈ s.global_multi.handles → (s.refs r).locked = true) →
      ((R_multi_add s r c e).error ≠ none ↔ (s.refs r).locked = true)) := by
  refine ⟨?_, fun h => R_multi_add_locked s r c e h, ?_⟩
  · cases hl : (s.refs r).locked
    · by_cases hr : r ∈ s.global_multi.handles
      · simp [R_multi_add_refused s r c e hl hr]
      · simp [R_multi_add_unlocked s r c e hl hr]
    · simp [R_multi_add_locked s r c e hl]
  · intro hreg
    cases hl : (s.refs r).locked
    · have hr : r ∉ s.global_multi.handles := fun hm => by simp [hreg hm] at hl
      simp [R_multi_add_unlocked s r c e hl hr]
    · simp [R_multi_add_locked s r c e hl]

/-- Instance of C1: resubmitting the locked handle 0 of `state1` fails, and
submitting the unlocked handle 1 does not. -/
theorem R_multi_add_fails_iff_locked_witness :
    ((state1.refs 0).locked = true ∧
     R_multi_add state1 0 SEXP.nil SEXP.nil =
       { state := state1, error := some RError.handle_locked }) ∧
    ((1 ∈ state1.global_multi.handles → (state1.refs 1).locked = true) ∧
     ((R_multi_add state1 1 SEXP.nil SEXP.nil).error ≠ none ↔ (state1.refs 1).locked = true)) :=
  ⟨⟨by decide, (R_multi_add_fails_iff_locked state1 0 SEXP.nil SEXP.nil).2.1 (by decide)⟩,
   ⟨by decide, (R_multi_add_fails_iff_locked state1 1 SEXP.nil SEXP.nil).2.2 (by decide)⟩⟩

/-- C6: a submission of an unlocked reference that returns normally leaves the
reference busy and locked, its `refCount` one higher, its callback slots equal
to the two callbacks supplied, the write sink installed, the handle in the
active set of the engine, and the trace of callback invocations as it was. -/
theorem R_multi_add_success (s : State) (r : Nat) (c e : SEXP)
    (hl : (s.refs r).locked = false) (hok : (R_multi_add s r c e).error = none) :
    (((R_multi_add s r c e).state.refs r).multi.busy = true ∧
     ((R_multi_add s r c e).state.refs r).locked = true ∧
     ((R_multi_add s r c e).state.refs r).refCount = (s.refs r).refCount + 1 ∧
     ((R_multi_add s r c e).state.refs r).multi.complete = c ∧
     ((R_multi_add s r c e).state.refs r).multi.error = e) ∧
    (((R_multi_add s r c e).state.refs r).handle.writefunction = WriteFunction.append_buffer ∧
     ((R_multi_add s r c e).state.refs r).handle.writedata = WriteData.multi_content) ∧
    r ∈ (R_multi_add s r c e).state.global_multi.handles ∧
    (R_multi_add s r c e).state.trace = s.trace := by
  by_cases hr : r ∈ s.global_multi.handles
  · simp [R_multi_add_refused s r c e hl hr] at hok
  · simp [R_multi_add_unlocked s r c e hl hr]

/-- Instance of C6: submitting handle 0 in the fresh process. -/
theorem R_multi_add_success_witness :
    ((state0.refs 0).locked = false ∧
     (R_multi_add state0 0 (SEXP.closure 1) (SEXP.closure 2)).error = none) ∧
    (((R_multi_add state0 0 (SEXP.closure 1) (SEXP.closure 2)).state.refs 0).multi.busy = true ∧
     ((R_multi_add state0 0 (SEXP.closure 1) (SEXP.closure 2)).state.refs 0).locked = true ∧
     ((R_multi_add state0 0 (SEXP.closure 1) (SEXP.closure 2)).state.refs 0).refCount
        = (state0.refs 0).refCount + 1 ∧
     ((R_multi_add state0 0 (SEXP.closure 1) (SEXP.closure 2)).state.refs 0).multi.complete
        = SEXP.closure 1 ∧
     ((R_multi_add state0 0 (SEXP.closure 1) (SEXP.closure 2)).state.refs 0).multi.error
        = SEXP.closure 2) :=
  ⟨⟨by decide, by decide⟩,
   (R_multi_add_success state0 0 (SEXP.closure 1) (SEXP.closure 2) (by decide) (by decide)).1⟩

/-! ## Cancellation -/

/-- C7: `R_multi_cancel` on a reference that is not busy (locked by someone
else or not) returns normally and changes nothing, neither in the references
nor in the engine; hence cancelling twice is the same as cancelling once. -/
theorem R_multi_cancel_idempotent (s : State) (r : Nat) :
    ((s.refs r).multi.busy = false → R_multi_cancel s r = { state := s, error := none }) ∧
    R_multi_cancel (R_multi_cancel s r).state r = R_multi_cancel s r := by
  refine ⟨R_multi_cancel_idle s r, ?_⟩
  cases hb : (s.refs r).multi.busy
  · simp [R_multi_cancel_idle s r hb, hb]
  · rw [R_multi_cancel_busy s r hb]
    rw [R_multi_cancel_idle]
    simp only [Function.update_same, clean_handle, reset_multi]
    split <;> rfl

/-- Instance of C7: cancelling the idle handle 3 of `state1`, which holds a
busy handle 0. -/
theorem R_multi_cancel_idempotent_witness :
    (state1.refs 3).multi.busy = false ∧
    R_multi_cancel state1 3 = { state := state1, error := none } :=
  ⟨by decide, (R_multi_cancel_idempotent state1 3).1 (by decide)⟩

/-- C8: if busy implies locked for all references, then it still does after a
submission, after a cancellation, after the body of a callback, after a
dispatch and after a run; and the references satisfy it at every callback
entry recorded during the dispatch or the run. -/
theorem busy_implies_locked_preserved (s : State) (hinv : busy_implies_locked s.refs) :
    (∀ h c e, busy_implies_locked (R_multi_add s h c e).state.refs) ∧
    (∀ h, busy_implies_locked (R_multi_cancel s h).state.refs) ∧
    (∀ acts, busy_implies_locked (eval_body acts s).1.refs) ∧
    (∀ env l m, busy_implies_locked (dispatch env s l m).1.state.refs ∧
      ∀ c ∈ (dispatch env s l m).1.state.trace, c ∈ s.trace ∨ busy_implies_locked c.heap) ∧
    (∀ f env script t tc hc mp res, R_multi_run f env script s t tc hc mp = some res →
      busy_implies_locked res.state.refs ∧
      ∀ c ∈ res.state.trace, c ∈ s.trace ∨ busy_implies_locked c.heap) := by
  have hd : ∀ env (x : State) l m, busy_implies_locked x.refs →
      ∀ c ∈ (dispatch env x l m).1.state.trace, c ∈ x.trace ∨ busy_implies_locked c.heap := by
    intro env x l m hx c hc
    rw [dispatch_trace, List.mem_append] at hc
    rcases hc with hc | hc
    · exact Or.inl hc
    · right
      rw [Option.mem_toList] at hc
      rw [(dispatch_call_some x m c hc).2.2.1]
      exact busy_implies_locked_entry x m hx
  refine ⟨fun h c e => busy_implies_locked_add s h c e hinv,
    fun h => busy_implies_locked_cancel s h hinv,
    fun acts => busy_implies_locked_eval_body acts s hinv,
    fun env l m => ⟨busy_implies_locked_dispatch env s l m hinv, hd env s l m hinv⟩, ?_⟩
  intro f env script t tc hc mp res hrun
  refine R_multi_run_induct f env
    (fun x => busy_implies_locked x.refs ∧
      ∀ c ∈ x.trace, c ∈ s.trace ∨ busy_implies_locked c.heap)
    ?_ ?_ ?_ script s t tc hc mp res ⟨hinv, fun c hc => Or.inl hc⟩ hrun
  · intro x m hx _ _
    exact hx
  · intro x ev hx
    exact hx
  · intro x l m rest hx _
    refine ⟨busy_implies_locked_dispatch env _ l m hx.1, ?_⟩
    intro c hc
    rcases hd env { x with global_multi := { x.global_multi with msgs := rest } } l m
      hx.1 c hc with h1 | h1
    · exact hx.2 c h1
    · exact Or.inr h1

/-- Instance of C8: the fresh process, where no reference is busy. -/
theorem busy_implies_locked_preserved_witness :
    busy_implies_locked state0.refs ∧
    ∀ h c e, busy_implies_locked (R_multi_add state0 h c e).state.refs :=
  ⟨fun _ hb => by simp [state0, ref0] at hb,
   (busy_implies_locked_preserved state0 (fun _ hb => by simp [state0, ref0] at hb)).1⟩

/-! ## The dispatcher -/

/-- C5: with a timeout of zero, `R_multi_run` executes the body of its outer
loop once and returns, whatever the state and however many transfers remain
pending: a run that returns has consumed exactly one iteration of the script,
and the run does return as soon as, in that one iteration, the interrupt flag
is set or the engine stops asking for another immediate call of
`curl_multi_perform`. -/
theorem run_zero_timeout_single_pass (f : Features) (env : Closures)
    (script : List Iteration) (s : State) (tc hc : Int) (mp : Bool) :
    (∀ res, R_multi_run f env script s 0 tc hc mp = some res →
      ∃ it, script = it :: res.rest) ∧
    (∀ it rest, script = it :: rest →
      (it.interrupt = true ∨ ∃ ev ∈ it.performs, ev.res ≠ CURLM_CALL_MULTI_PERFORM) →
      ∃ res, R_multi_run f env script s 0 tc hc mp = some res) := by
  have key : ∀ (it : Iteration) (rest : List Iteration) (x : State) (l : Locals),
      (∀ res, run_loop env 0 (it :: rest) x l = some res → res.rest = rest) ∧
      ((it.interrupt = true ∨ ∃ ev ∈ it.performs, ev.res ≠ CURLM_CALL_MULTI_PERFORM) →
        ∃ res, run_loop env 0 (it :: rest) x l = some res) := by
    intro it rest x l
    unfold run_loop
    simp only
    cases hi : it.interrupt
    · simp only [Bool.false_eq_true, if_false, false_or]
      cases hr : perform_loop it.performs x.global_multi with
      | none =>
        refine ⟨fun res hres => (by cases hres), fun hp => ?_⟩
        obtain ⟨r, hr1⟩ := perform_loop_total it.performs x.global_multi hp
        rw [hr] at hr1
        cases hr1
      | some r =>
        simp only
        split
        · exact ⟨fun res hres => (by cases hres; rfl), fun _ => ⟨_, rfl⟩⟩
        · obtain ⟨d, hd⟩ := drain_total env (r.2.2.msgs.length + 1)
            { x with global_multi := r.2.2 }
            { total_pending := r.2.1, total_success := l.total_success,
              total_fail := l.total_fail, dirty := false } (Nat.lt_succ_self _)
          simp only [hd, (drain_spec env _ _ _ _ hd).1]
          simp only [gt_iff_lt, lt_self_iff_false, false_and, if_false, bne_self_eq_false,
            Bool.and_false, Bool.false_eq_true]
          exact ⟨fun res hres => (by cases hres; rfl), fun _ => ⟨_, rfl⟩⟩
    · simp only [if_true]
      exact ⟨fun res hres => (by cases hres; rfl), fun _ => ⟨_, rfl⟩⟩
  unfold R_multi_run
  constructor
  · intro res hres
    cases script with
    | nil => simp [run_loop] at hres
    | cons it rest => exact ⟨it, by rw [(key it rest _ _).1 res hres]⟩
  · intro it rest hs hp
    subst hs
    exact (key it rest _ _).2 hp

/-- Instance of C5: two transfers are active, one finishes during the single
pass, and the run returns with the other one still pending and the second
iteration of the script untouched. -/
theorem run_zero_timeout_single_pass_witness :
    (R_multi_run features0 env0 (pass [{ easy_handle := 0, result := 0 }] :: [pass []])
        (R_multi_add state1 1 SEXP.nil SEXP.nil).state 0 6 6 false).map
        (fun res => (res.success, res.fail, res.pending, res.rest))
      = some (1, 0, 1, [pass []]) ∧
    ∀ res, R_multi_run features0 env0 (pass [{ easy_handle := 0, result := 0 }] :: [pass []])
        (R_multi_add state1 1 SEXP.nil SEXP.nil).state 0 6 6 false = some res →
      ∃ it, pass [{ easy_handle := 0, result := 0 }] :: [pass []] = it :: res.rest :=
  ⟨by decide,
   (run_zero_timeout_single_pass features0 env0
      (pass [{ easy_handle := 0, result := 0 }] :: [pass []])
      (R_multi_add state1 1 SEXP.nil SEXP.nil).state 6 6 false).1⟩

/-- C9: callbacks that raise do not affect the run.  For two R sessions whose
callbacks do nothing to the scheduler but possibly raise an error (a body that
raises in one session may return normally in the other), the same script of
engine events gives the same result of `R_multi_run`: the same callback
invocations in the same order, the same final state and the same three counts;
and a run that returns has not raised an R error. -/
theorem raising_callbacks_do_not_affect_run (f : Features) (env1 env2 : Closures)
    (script : List Iteration) (s : State) (t tc hc : Int) (mp : Bool)
    (h1 : only_stop env1) (h2 : only_stop env2) :
    R_multi_run f env1 script s t tc hc mp = R_multi_run f env2 script s t tc hc mp ∧
    ∀ res, R_multi_run f env1 script s t tc hc mp = some res → res.error = none := by
  unfold R_multi_run
  exact ⟨run_loop_only_stop env1 env2 h1 h2 t _ _ _, fun res h => run_loop_error env1 t _ _ _ _ h⟩

/-- Instance of C9: handle 0 succeeds with closure 1 as callback; in `env0`
the closure returns normally, in `env_raise` it raises. -/
theorem raising_callbacks_do_not_affect_run_witness :
    (only_stop env0 ∧ only_stop env_raise) ∧
    R_multi_run features0 env0
        [{ interrupt := false,
           performs := [{ res := CURLM_OK, done := [{ easy_handle := 0, result := 0 }] }],
           seconds_elapsed := 0 }] state1 0 6 6 false
      = R_multi_run features0 env_raise
        [{ interrupt := false,
           performs := [{ res := CURLM_OK, done := [{ easy_handle := 0, result := 0 }] }],
           seconds_elapsed := 0 }] state1 0 6 6 false :=
  ⟨⟨fun _ a ha => by simp [env0] at ha, fun _ a ha => by simpa [env_raise] using ha⟩,
   (raising_callbacks_do_not_affect_run features0 env0 env_raise _ state1 0 6 6 false
      (fun _ a ha => by simp [env0] at ha)
      (fun _ a ha => by simpa [env_raise] using ha)).1⟩

/-- C2, amended: in a run whose callbacks do not touch the scheduler, that is
not interrupted before its first call of `curl_multi_perform`, and that stops
neither on the timeout nor on an engine error, the three returned counts add
up to the number of handles that were in the active set of the (consistent)
engine when the run was called. -/
theorem run_counts_conserved (f : Features) (env : Closures) (it : Iteration)
    (rest : List Iteration) (s : State) (t tc hc : Int) (mp : Bool) (res : RunResult)
    (henv : only_stop env) (hcons : engine_consistent s.global_multi)
    (hfirst : it.interrupt = false)
    (hrun : R_multi_run f env (it :: rest) s t tc hc mp = some res)
    (_htime : res.stop ≠ Stop.timed_out) (hfail : res.stop ≠ Stop.multi_failed) :
    res.success + res.fail + res.pending = (s.global_multi.handles.length : Int) := by
  unfold R_multi_run at hrun
  have hconf : (configure f s.global_multi tc hc mp).handles = s.global_multi.handles ∧
      (configure f s.global_multi tc hc mp).msgs = s.global_multi.msgs := by
    unfold configure; split <;> split <;> exact ⟨rfl, rfl⟩
  refine run_loop_counts env henv t _ _ _ _ res ?_ ?_ (Or.inr ⟨it, rest, rfl, hfirst⟩)
    hrun hfail
  · unfold engine_consistent at hcons ⊢
    simp only [hconf.1, hconf.2]
    exact hcons
  · simp only [hconf.1]
    omega

/-- Instance of C2 amended: handle 0 of `state1` succeeds in the first pass, the
second pass finds nothing left, and the counts add up to the one transfer. -/
theorem run_counts_conserved_witness :
    ∃ res, R_multi_run features0 env0 (pass [{ easy_handle := 0, result := 0 }] :: [pass []])
        state1 10 6 6 false = some res ∧
      res.stop = Stop.finished ∧
      res.success + res.fail + res.pending = (state1.global_multi.handles.length : Int) :=
  ⟨(R_multi_run features0 env0 (pass [{ easy_handle := 0, result := 0 }] :: [pass []])
      state1 10 6 6 false).get (by decide),
   by simp, by decide,
   run_counts_conserved features0 env0 (pass [{ easy_handle := 0, result := 0 }]) [pass []]
     state1 10 6 6 false _ (fun _ a ha => by simp [env0] at ha) (by decide) (by decide)
     (by simp) (by decide) (by decide)⟩

/-- C2 as stated fails twice.  First, a run that finds the interrupt flag set
on entry returns three zeros although one transfer is active.  Second, when
the `complete` callback of the one active transfer submits a second transfer,
the run stops normally with two successes. -/
theorem run_counts_not_conserved :
    (state1.global_multi.handles.length = 1 ∧
     (R_multi_run features0 env0 [interrupted_pass] state1 10 6 6 false).map
        (fun res => (res.stop, res.success, res.fail, res.pending))
       = some (Stop.interrupted, 0, 0, 0)) ∧
    (R_multi_run features0 env_submit
        [pass [{ easy_handle := 0, result := 0 }], pass [{ easy_handle := 1, result := 0 }],
         pass []] state1 10 6 6 false).map
        (fun res => (res.stop, res.success, res.fail, res.pending))
       = some (Stop.finished, 2, 0, 0) := by
  decide

end Curl
